import Mathlib

/-!
Verification of the data-cleaning, loading and chart-summary logic of the
exchange/refund analysis dashboard (`src/app.py`).

The Python code works on pandas DataFrames.  We embed a DataFrame as a list
of column names plus a list of rows of cells, where a cell is either a text
value or an integer value.  The functions `clean_dataframe`,
`load_google_sheet` and the summary computations of `create_charts` are
translated directly from the source.  Rendering calls (streamlit/plotly) are
effects with no data flow back into the program and are not modelled; the
values handed to them (grouped summaries, percentages, top-10 list) are.
-/

namespace MurrayApp

/-- A spreadsheet cell: either text or an integer number.  (`src/app.py`
stores text cells and numeric cells; fractional numbers never arise in the
modelled claims and integers are the intended count type.) -/
inductive Cell where
  | str (s : String)
  | num (n : Int)
deriving DecidableEq, Repr

/-- `astype(str)` on one cell. -/
def Cell.toStr : Cell → String
  | .str s => s
  | .num n => toString n

/-- Python's `str.strip()`: drop leading and trailing whitespace. -/
def strip (s : String) : String :=
  ⟨((s.data.dropWhile Char.isWhitespace).reverse.dropWhile Char.isWhitespace).reverse⟩

/-- Is `c` an ASCII digit (the `\d` class on the data appearing here)? -/
def isDigitChar (c : Char) : Bool := '0' ≤ c && c ≤ '9'

/-- Numeric value of a digit string. -/
def digitsVal (cs : List Char) : Nat :=
  cs.foldl (fun n c => n * 10 + (c.toNat - '0'.toNat)) 0

/-- Parse an optionally signed integer literal; anything else is `none`.
Embeds `pd.to_numeric(-, errors="coerce")` on the integer-string cells that
occur in this data. -/
def parseSigned : List Char → Option Int
  | [] => none
  | '-' :: cs =>
    if !cs.isEmpty && cs.all isDigitChar then some (-(digitsVal cs : Int)) else none
  | '+' :: cs =>
    if !cs.isEmpty && cs.all isDigitChar then some ((digitsVal cs : Int)) else none
  | cs =>
    if !cs.isEmpty && cs.all isDigitChar then some ((digitsVal cs : Int)) else none

/-- `pd.to_numeric(-, errors="coerce")` on one cell: numbers pass through,
numeric text parses, other text becomes missing (`none`). -/
def Cell.toNum : Cell → Option Int
  | .num n => some n
  | .str s => parseSigned (strip s).toList

/-- A pandas DataFrame: named columns and rows of cells (row `i`'s `j`-th
cell belongs to column `j`). -/
structure DataFrame where
  columns : List String
  rows : List (List Cell)
deriving DecidableEq, Repr

/-- `df.empty`: the frame has no rows.  (Every frame built by this program
carries its header columns, so emptiness is emptiness of the row axis.) -/
def DataFrame.empty (df : DataFrame) : Bool := df.rows.isEmpty

/-- Position of column `c`, if present. -/
def colIdx (cols : List String) (c : String) : Option Nat := cols.findIdx? (· == c)

/-- Cell of `row` in column `c` (missing cells read as empty text). -/
def getCell (cols : List String) (row : List Cell) (c : String) : Cell :=
  match colIdx cols c with
  | some i => row.getD i (Cell.str "")
  | none => Cell.str ""

/-- The three required columns of `clean_dataframe` (`src/app.py` line 21). -/
def required_columns : List String := ["모델명", "처리방식", "수량"]

/-- Line 22: all required columns present? -/
def DataFrame.hasRequired (df : DataFrame) : Bool :=
  required_columns.all (df.columns.contains ·)

/-- One row after the normalisation of lines 29-31: trimmed model name,
trimmed method, count coerced to a number with failures mapped to 0. -/
structure RawRec where
  model : String
  method : String
  qty : Int
deriving DecidableEq, Repr

/-- Lines 29-31 applied to one row of the frame. -/
def toRawRec (cols : List String) (row : List Cell) : RawRec :=
  { model := strip (getCell cols row "모델명").toStr
    method := strip (getCell cols row "처리방식").toStr
    qty := ((getCell cols row "수량").toNum).getD 0 }

/-- `re.match(r"^\d+$", s)` succeeds: `s` is a non-empty run of digits. -/
def matchesAllDigits (s : String) : Bool :=
  !s.isEmpty && s.toList.all isDigitChar

/-- A date separator: a hyphen or a slash. -/
def isSepChar (c : Char) : Bool := c == '-' || c == '/'

/-- Consume exactly `n` digits, returning the remainder. -/
def takeDigits : Nat → List Char → Option (List Char)
  | 0, cs => some cs
  | _ + 1, [] => none
  | n + 1, c :: cs => if isDigitChar c then takeDigits n cs else none

/-- `\d{1,2}` (one or two digits) then end of pattern. -/
def dateTail2 (cs : List Char) : Bool :=
  [1, 2].any fun lc => (takeDigits lc cs).isSome

/-- `\d{1,2}` then a separator then `\d{1,2}`, starting here. -/
def dateTail1 (cs : List Char) : Bool :=
  [1, 2].any fun lb =>
    match takeDigits lb cs with
    | some (s2 :: r2) => isSepChar s2 && dateTail2 r2
    | _ => false

/-- The date pattern (2-4 digits, separator, 1-2 digits, separator,
1-2 digits) matches starting at this position. -/
def datePatternAt (cs : List Char) : Bool :=
  [2, 3, 4].any fun la =>
    match takeDigits la cs with
    | some (s1 :: r1) => isSepChar s1 && dateTail1 r1
    | _ => false

/-- `re.search` of the date pattern: a match starts at some position. -/
def datePatternSearch : List Char → Bool
  | [] => false
  | c :: cs => datePatternAt (c :: cs) || datePatternSearch cs

/-- The `str.contains` date-pattern test of line 36 (a regex search). -/
def containsDate (s : String) : Bool := datePatternSearch s.toList

/-- A character of the class `[A-Za-z0-9가-힣]` (line 39). -/
def allowedStartChar (c : Char) : Bool :=
  ('A' ≤ c && c ≤ 'Z') || ('a' ≤ c && c ≤ 'z') ||
    ('0' ≤ c && c ≤ '9') || ('가' ≤ c && c ≤ '힣')

/-- `re.match(r"^[^A-Za-z0-9가-힣]", s)` succeeds: the first character is
outside the allowed class (an empty string never matches). -/
def startsWithDisallowed (s : String) : Bool :=
  match s.toList with
  | [] => false
  | c :: _ => !allowedStartChar c

/-- The fixed allow-list of the nine disposition codes (lines 42-43). -/
def valid_methods : List String :=
  ["단순변심", "수거하면할", "물량교환", "물량환불", "수거하면 할",
   "오배송환불", "오배송교환", "본사교환(오주문)", "택배사사고환불"]

/-- The model-name filters of lines 34-39, on the trimmed model name. -/
def modelOK (m : String) : Bool :=
  m.length > 0 && !matchesAllDigits m && !containsDate m && !startsWithDisallowed m

/-- A normalised row survives all of the row filters of lines 34-44. -/
def rowSurvives (r : RawRec) : Bool :=
  modelOK r.model && valid_methods.contains r.method

/-- Grouping key of line 47. -/
def recKey (r : RawRec) : String × String := (r.model, r.method)

/-- The sorted order pandas `groupby` uses on `(모델명, 처리방식)` keys:
lexicographic on the two strings. -/
def keyLE (a b : String × String) : Prop :=
  a.1 < b.1 ∨ (a.1 = b.1 ∧ a.2 ≤ b.2)

instance : DecidableRel keyLE := fun a b =>
  inferInstanceAs (Decidable (a.1 < b.1 ∨ (a.1 = b.1 ∧ a.2 ≤ b.2)))

/-- Summed `수량` of the rows with grouping key `k`. -/
def fiberSum (rs : List RawRec) (k : String × String) : Int :=
  ((rs.filter fun r => recKey r == k).map (·.qty)).sum

/-- The distinct grouping keys present in `rs`, in sorted order
(pandas `groupby` sorts group keys). -/
def groupKeysSorted (rs : List RawRec) : List (String × String) :=
  ((rs.map recKey).dedup).insertionSort keyLE

/-- Line 47: `groupby(["모델명", "처리방식"], as_index=False)["수량"].sum()`. -/
def groupedSums (rs : List RawRec) : List ((String × String) × Int) :=
  (groupKeysSorted rs).map fun k => (k, fiberSum rs k)

/-- Lines 34-50 on normalised rows: filter, group-sum, drop non-positive. -/
def cleanRecs (rs : List RawRec) : List RawRec :=
  ((groupedSums (rs.filter rowSurvives)).filter fun e => decide (0 < e.2)).map
    fun e => { model := e.1.1, method := e.1.2, qty := e.2 }

/-- Lines 26-50 on the selected columns of a frame. -/
def cleanRecords (cols : List String) (rows : List (List Cell)) : List RawRec :=
  cleanRecs (rows.map (toRawRec cols))

/-- A cleaned record written back as a row of the output frame. -/
def recordRow (r : RawRec) : List Cell :=
  [Cell.str r.model, Cell.str r.method, Cell.num r.qty]

/-- `clean_dataframe` (lines 15-52): `None` and empty frames pass through,
frames missing a required column are rejected with `None`, all other frames
are cleaned and aggregated. -/
def clean_dataframe : Option DataFrame → Option DataFrame
  | none => none
  | some df =>
    if df.empty then some df
    else if df.hasRequired then
      some { columns := required_columns
             rows := (cleanRecords df.columns df.rows).map recordRow }
    else none

/-- Summed `수량` of the records with disposition method `p`. -/
def methodFiberSum (data : List RawRec) (p : String) : Int :=
  ((data.filter fun r => r.method == p).map (·.qty)).sum

/-- Line 112: `data.groupby("처리방식")["수량"].sum().reset_index()`
(pandas `groupby` sorts the keys). -/
def process_summary (data : List RawRec) : List (String × Int) :=
  (((data.map (·.method)).dedup).insertionSort (· ≤ ·)).map
    fun p => (p, methodFiberSum data p)

/-- Line 113: the grand total of the grouped counts. -/
def grandTotal (data : List RawRec) : Int :=
  ((process_summary data).map (·.2)).sum

/-- Round to the nearest integer, halves to the even neighbour (the
rounding used by `Series.round`). -/
def roundHalfEven (x : ℚ) : ℤ :=
  if x - ⌊x⌋ < 1 / 2 then ⌊x⌋
  else if 1 / 2 < x - ⌊x⌋ then ⌊x⌋ + 1
  else if ⌊x⌋ % 2 = 0 then ⌊x⌋ else ⌊x⌋ + 1

/-- `.round(1)`: round to one decimal place. -/
def round1 (x : ℚ) : ℚ := (roundHalfEven (10 * x) : ℚ) / 10

/-- Line 114: each category's percentage of the grand total, rounded to one
decimal, in the grouped order (the later `sort_values` permutes the rows
but not the multiset of percentages). -/
def ratios (data : List RawRec) : List ℚ :=
  (process_summary data).map fun e =>
    round1 ((e.2 : ℚ) / (grandTotal data : ℚ) * 100)

/-- A worksheet of the remote document: its title and the outcome of
fetching all its cell values as text (`get_all_values` either returns the
rows or raises, which the per-tab handler catches). -/
structure Worksheet where
  title : String
  fetch : Except String (List (List String))

/-- The per-tab error notice of line 92. -/
def tabErrorMsg (t e : String) : String := t ++ " 시트 처리 중 오류 발생: " ++ e

/-- Lines 71-93 for one worksheet: fetch, skip empty data, skip when the
required columns are absent from the header row, build the frame from the
first row as header, clean it, and keep it only when the cleaned frame is
non-empty.  An error is propagated to the per-tab handler. -/
def processWorksheet (w : Worksheet) : Except String (Option (String × DataFrame)) :=
  match w.fetch with
  | .error e => .error e
  | .ok [] => .ok none
  | .ok (headers :: values) =>
    if required_columns.all (headers.contains ·) then
      match clean_dataframe (some { columns := headers
                                    rows := values.map (·.map Cell.str) }) with
      | some c => if c.empty then .ok none else .ok (some (w.title, c))
      | none => .ok none
    else .ok none

/-- Lines 69-93: process every worksheet in order, collecting the kept tabs
and the per-tab error notices; a failing tab contributes a notice naming it
and processing continues. -/
def processAll : List Worksheet → List (String × DataFrame) × List String
  | [] => ([], [])
  | w :: ws =>
    let rest := processAll ws
    match processWorksheet w with
    | .error e => (rest.1, tabErrorMsg w.title e :: rest.2)
    | .ok none => rest
    | .ok (some tab) => (tab :: rest.1, rest.2)

/-- `load_google_sheet` (lines 54-99).  The authentication / document-open
steps are the argument: either they fail with an error (the outer handler
reports it and returns `None`) or they yield the document's worksheets, and
then every worksheet is processed with per-tab error recovery.  The result
pairs the kept tabs with the per-tab error notices shown to the user. -/
def load_google_sheet (conn : Except String (List Worksheet)) :
    Option (List (String × DataFrame) × List String) :=
  match conn with
  | .error _ => none
  | .ok ws => some (processAll ws)

/-- The three-row input table of the spec's cleaning scenario. -/
def scenarioInput : DataFrame :=
  { columns := ["모델명", "처리방식", "수량"]
    rows := [[Cell.str "M1", Cell.str "단순변심", Cell.num 3],
             [Cell.str "M1", Cell.str "단순변심", Cell.num 2],
             [Cell.str "M2", Cell.str "1900-01-01", Cell.num 5]] }

/-- A row survives the filters and carries grouping key `k` (the filter
sequence of lines 34-44 composed into one predicate). -/
def survCond (k : String × String) (r : RawRec) : Bool :=
  (recKey r == k) && rowSurvives r

/-- Total raw count carried by grouping key `k` among surviving rows. -/
def rawKeySum (rs : List RawRec) (k : String × String) : Int :=
  ((rs.filter (survCond k)).map (·.qty)).sum

/-- Summed count held by the pair `k` in the cleaned output (0 when the
pair is absent). -/
def outSum (rs : List RawRec) (k : String × String) : Int :=
  (((cleanRecs rs).filter fun r => recKey r == k).map (·.qty)).sum

/-- A healthy worksheet used in the loader examples. -/
def goodWS : Worksheet :=
  { title := "시트1"
    fetch := Except.ok [["모델명", "처리방식", "수량"], ["M1", "단순변심", "5"]] }

/-- A second healthy worksheet used in the loader examples. -/
def goodWS2 : Worksheet :=
  { title := "시트3"
    fetch := Except.ok [["모델명", "처리방식", "수량"], ["M2", "물량교환", "2"]] }

/-- A worksheet whose fetch raises, used in the loader examples. -/
def badWS : Worksheet :=
  { title := "시트2", fetch := Except.error "API quota exceeded" }

/-- The cleaned tab produced from `goodWS`. -/
def goodTab1 : String × DataFrame :=
  ("시트1",
   { columns := required_columns,
     rows := [[Cell.str "M1", Cell.str "단순변심", Cell.num 5]] })

/-- The cleaned tab produced from `goodWS2`. -/
def goodTab2 : String × DataFrame :=
  ("시트3",
   { columns := required_columns,
     rows := [[Cell.str "M2", Cell.str "물량교환", Cell.num 2]] })

/-- C2: cleaning the three rows (M1, 단순변심, 3), (M1, 단순변심, 2),
(M2, 1900-01-01, 5) yields exactly the single row (M1, 단순변심, 5): the two
M1 rows are aggregated and the date-named M2 row is excluded. -/
theorem clean_scenario :
    clean_dataframe (some scenarioInput) =
      some { columns := required_columns
             rows := [[Cell.str "M1", Cell.str "단순변심", Cell.num 5]] } := by
  decide

/-- C10: a `None` input and an empty table pass through `clean_dataframe`
unchanged, before any required-column check: in particular an empty table
lacking the three required columns comes back as that empty table, not as
a `None` rejection. -/
theorem clean_passthrough (df : DataFrame) (h : df.empty = true) :
    clean_dataframe none = none ∧ clean_dataframe (some df) = some df :=
  ⟨rfl, by simp [clean_dataframe, h]⟩

/-- Witness for C10: a concrete empty table without the required columns is
returned unchanged. -/
theorem clean_passthrough_w :
    ({ columns := ["foo"], rows := [] } : DataFrame).empty = true ∧
      clean_dataframe (some { columns := ["foo"], rows := [] }) =
        some { columns := ["foo"], rows := [] } :=
  ⟨by decide, (clean_passthrough _ (by decide)).2⟩

/-- C5: a normalised row whose model name is entirely digits, or contains a
date-like substring, fails the row filters regardless of its method and
count. -/
theorem digit_date_excluded (r : RawRec)
    (h : matchesAllDigits r.model = true ∨ containsDate r.model = true) :
    rowSurvives r = false := by
  rcases h with h | h <;> simp [rowSurvives, modelOK, h]

/-- Witness for C5: the all-digit model name 123 is excluded even with a
valid method and positive count. -/
theorem digit_date_excluded_w :
    matchesAllDigits "123" = true ∧
      rowSurvives { model := "123", method := "단순변심", qty := 5 } = false :=
  ⟨by decide, digit_date_excluded _ (Or.inl (by decide))⟩

/-- Counterexample for C3 as stated: an empty table that lacks all three
required columns is not rejected with `None` — it is returned unchanged
(the emptiness check of line 17 fires before the column check of line 22). -/
theorem c3_counterexample :
    DataFrame.hasRequired { columns := ["비고"], rows := [] } = false ∧
      clean_dataframe (some { columns := ["비고"], rows := [] }) ≠ none := by
  decide

/-- C3 (amended): a non-empty table missing a required column is rejected
with `None`, and a table with all three required columns present is never
rejected with `None`. -/
theorem missing_columns_rejected (df : DataFrame) :
    (df.empty = false → df.hasRequired = false → clean_dataframe (some df) = none) ∧
      (df.hasRequired = true → clean_dataframe (some df) ≠ none) := by
  by_cases h : df.empty <;> by_cases h2 : df.hasRequired <;>
    simp [clean_dataframe, h, h2]

/-- Witness for C3 (amended): a concrete non-empty one-column table is
rejected. -/
theorem missing_columns_rejected_w :
    ({ columns := ["모델명"], rows := [[Cell.str "x"]] } : DataFrame).empty = false ∧
      DataFrame.hasRequired { columns := ["모델명"], rows := [[Cell.str "x"]] } = false ∧
      clean_dataframe (some { columns := ["모델명"], rows := [[Cell.str "x"]] }) = none :=
  ⟨by decide, by decide,
    (missing_columns_rejected _).1 (by decide) (by decide)⟩

/-- Every record of the cleaned output has a positive count (the filter of
line 50 ran on the aggregated sums). -/
theorem qty_pos_of_mem_cleanRecs {rs : List RawRec} {r : RawRec}
    (h : r ∈ cleanRecs rs) : 0 < r.qty := by
  obtain ⟨e, he, rfl⟩ := List.mem_map.mp h
  have h2 := (List.mem_filter.mp he).2
  simpa using of_decide_eq_true h2

/-- Every record of the cleaned output carries a method from the allow-list
(its grouping key came from a surviving row). -/
theorem method_mem_of_mem_cleanRecs {rs : List RawRec} {r : RawRec}
    (h : r ∈ cleanRecs rs) : r.method ∈ valid_methods := by
  obtain ⟨e, he, rfl⟩ := List.mem_map.mp h
  have he1 := (List.mem_filter.mp he).1
  obtain ⟨k, hk, rfl⟩ := List.mem_map.mp he1
  have hk2 : k ∈ (List.map recKey (rs.filter rowSurvives)).dedup :=
    (List.mem_insertionSort keyLE).mp hk
  obtain ⟨rec, hrec, rfl⟩ := List.mem_map.mp (List.mem_dedup.mp hk2)
  have hs := (List.mem_filter.mp hrec).2
  have hm := ((Bool.and_eq_true _ _).mp hs).2
  exact List.mem_of_elem_eq_true hm

/-- C4: a row is kept only when its (trimmed) method is one of the nine
literal disposition codes — a duplicate-free allow-list containing both
whitespace variants of the collect-and-repair code as distinct values —
and a row with a method outside the list fails the row filters. -/
theorem method_allowlist (rs : List RawRec) (r s : RawRec)
    (h : r ∈ cleanRecs rs) (h2 : s.method ∉ valid_methods) :
    r.method ∈ valid_methods ∧ rowSurvives s = false ∧
      valid_methods.length = 9 ∧ valid_methods.Nodup ∧
      "수거하면할" ∈ valid_methods ∧ "수거하면 할" ∈ valid_methods := by
  refine ⟨method_mem_of_mem_cleanRecs h, ?_, by decide, by decide, by decide, by decide⟩
  simp only [rowSurvives, Bool.and_eq_false_iff]
  right
  rw [Bool.eq_false_iff]
  intro hc
  exact h2 (List.mem_of_elem_eq_true hc)

/-- Witness for C4: one surviving record with an allowed method, one
excluded record with the out-of-list method 불량. -/
theorem method_allowlist_w :
    ({ model := "M1", method := "단순변심", qty := 5 } : RawRec) ∈
        cleanRecs [{ model := "M1", method := "단순변심", qty := 5 }] ∧
      ("불량" : String) ∉ valid_methods ∧
      ({ model := "M1", method := "단순변심", qty := 5 } : RawRec).method ∈ valid_methods ∧
      rowSurvives { model := "M2", method := "불량", qty := 3 } = false :=
  have happ := method_allowlist [{ model := "M1", method := "단순변심", qty := 5 }]
    { model := "M1", method := "단순변심", qty := 5 }
    { model := "M2", method := "불량", qty := 3 } (by decide) (by decide)
  ⟨by decide, by decide, happ.1, happ.2.1⟩

/-- C1: any table returned by `clean_dataframe` has a strictly positive
count in every row — the post-aggregation filter of line 50 removed rows
with summed count ≤ 0 (a passed-through table is empty and has no rows). -/
theorem cleaned_counts_positive (input : Option DataFrame) (out : DataFrame)
    (h : clean_dataframe input = some out) (row : List Cell) (hr : row ∈ out.rows) :
    0 < ((getCell out.columns row "수량").toNum).getD 0 := by
  match input with
  | none => simp [clean_dataframe] at h
  | some df =>
    by_cases he : df.empty
    · rw [clean_dataframe, if_pos he] at h
      cases h
      rw [DataFrame.empty, List.isEmpty_iff] at he
      rw [he] at hr
      simp at hr
    · by_cases hc : df.hasRequired
      · rw [clean_dataframe, if_neg (by simp [he]), if_pos hc] at h
        cases h
        obtain ⟨r, hrrec, rfl⟩ := List.mem_map.mp hr
        have hq : 0 < r.qty := qty_pos_of_mem_cleanRecs hrrec
        have hcell : getCell required_columns (recordRow r) "수량" = Cell.num r.qty := rfl
        simpa [hcell, Cell.toNum] using hq
      · rw [clean_dataframe, if_neg (by simp [he]), if_neg (by simp [hc])] at h
        cases h

/-- Witness for C1: the single row of the cleaned scenario table has a
positive count. -/
theorem cleaned_counts_positive_w :
    clean_dataframe (some scenarioInput) =
        some { columns := required_columns
               rows := [[Cell.str "M1", Cell.str "단순변심", Cell.num 5]] } ∧
      [Cell.str "M1", Cell.str "단순변심", Cell.num 5] ∈
        ({ columns := required_columns
           rows := [[Cell.str "M1", Cell.str "단순변심", Cell.num 5]] } : DataFrame).rows ∧
      0 < ((getCell required_columns [Cell.str "M1", Cell.str "단순변심", Cell.num 5]
        "수량").toNum).getD 0 :=
  ⟨by decide, by decide,
    cleaned_counts_positive (some scenarioInput)
      { columns := required_columns
        rows := [[Cell.str "M1", Cell.str "단순변심", Cell.num 5]] }
      (by decide) [Cell.str "M1", Cell.str "단순변심", Cell.num 5] (by decide)⟩

/-- Worksheet processing distributes over concatenation of the worksheet
list: tabs and error notices are collected independently per worksheet. -/
theorem processAll_append (a b : List Worksheet) :
    processAll (a ++ b) =
      ((processAll a).1 ++ (processAll b).1, (processAll a).2 ++ (processAll b).2) := by
  induction a with
  | nil => simp [processAll]
  | cons w ws ih =>
    rw [List.cons_append]
    simp only [processAll]
    cases hw : processWorksheet w with
    | error e => simp [ih]
    | ok o => cases o <;> simp [ih]

/-- C8: an authentication/connection error makes `load_google_sheet` return
`None` with no tabs, while an error in one worksheet is caught, reported
with a notice naming that worksheet, and the remaining worksheets are
processed exactly as they would be without it. -/
theorem tab_error_isolated (a e : String) (pre post : List Worksheet)
    (w : Worksheet) (hw : w.fetch = Except.error e) :
    load_google_sheet (Except.error a) = none ∧
      load_google_sheet (Except.ok (pre ++ w :: post)) =
        some ((processAll pre).1 ++ (processAll post).1,
              (processAll pre).2 ++ tabErrorMsg w.title e :: (processAll post).2) := by
  refine ⟨rfl, ?_⟩
  have h1 : processWorksheet w = Except.error e := by
    rw [processWorksheet, hw]
  have h2 : processAll (w :: post) =
      ((processAll post).1, tabErrorMsg w.title e :: (processAll post).2) := by
    rw [processAll, h1]
  rw [load_google_sheet, processAll_append, h2]

/-- Witness for C8: with a failing middle worksheet, the two healthy
worksheets still yield their tabs and one notice names the failing sheet;
a failed authentication yields `None`. -/
theorem tab_error_isolated_w :
    badWS.fetch = Except.error "API quota exceeded" ∧
      load_google_sheet (Except.error "auth failed") = none ∧
      load_google_sheet (Except.ok [goodWS, badWS, goodWS2]) =
        some ([goodTab1, goodTab2],
              ["시트2 시트 처리 중 오류 발생: API quota exceeded"]) := by
  refine ⟨rfl, ?_, ?_⟩
  · exact (tab_error_isolated "auth failed" "API quota exceeded" [goodWS] [goodWS2]
      badWS rfl).1
  · have h := (tab_error_isolated "auth failed" "API quota exceeded" [goodWS] [goodWS2]
      badWS rfl).2
    exact h.trans (by decide)

/-- Summing the second components over a keyed map with distinct keys picks
out the single entry of key `k`, when it is positive. -/
theorem sum_over_keyed (k : String × String) (f : String × String → Int) :
    ∀ (keys : List (String × String)), keys.Nodup →
      (((keys.map fun k2 => (k2, f k2)).filter
          fun e => (e.1 == k) && decide (0 < e.2)).map (·.2)).sum
        = if k ∈ keys ∧ 0 < f k then f k else 0 := by
  intro keys
  induction keys with
  | nil => intro h; simp
  | cons k2 ks ih =>
    intro hnd
    have hk2ks : k2 ∉ ks := (List.nodup_cons.mp hnd).1
    have ihv := ih (List.nodup_cons.mp hnd).2
    simp only [List.map_cons, List.filter_cons]
    by_cases hq : k2 = k
    · subst hq
      by_cases hpos : 0 < f k2
      · rw [if_pos (by simp [hpos])]
        rw [List.map_cons, List.sum_cons, ihv, if_neg (by simp [hk2ks])]
        simp [hpos]
      · rw [if_neg (by simp [hpos]), ihv, if_neg (by simp [hk2ks]),
          if_neg (by simp [hpos])]
    · rw [if_neg (by simp [hq]), ihv]
      have hmem : (k ∈ k2 :: ks) ↔ k ∈ ks := by
        simp only [List.mem_cons, or_iff_right_iff_imp]
        intro hkk
        exact absurd hkk.symm hq
      by_cases hks : k ∈ ks ∧ 0 < f k
      · rw [if_pos hks, if_pos ⟨hmem.mpr hks.1, hks.2⟩]
      · rw [if_neg hks, if_neg (fun hcon => hks ⟨hmem.mp hcon.1, hcon.2⟩)]

/-- Normal form of the cleaned output's per-pair sum: it is the raw sum of
the surviving rows with that key, clamped to 0 when not positive. -/
theorem outSum_eq (rs : List RawRec) (k : String × String) :
    outSum rs k = if 0 < rawKeySum rs k then rawKeySum rs k else 0 := by
  have hnd : (groupKeysSorted (rs.filter rowSurvives)).Nodup :=
    List.Perm.nodup
      (List.Perm.symm (List.perm_insertionSort keyLE
        ((rs.filter rowSurvives).map recKey).dedup))
      (List.nodup_dedup ((rs.filter rowSurvives).map recKey))
  have h1 : outSum rs k =
      ((((groupKeysSorted (rs.filter rowSurvives)).map
          (fun k2 => (k2, fiberSum (rs.filter rowSurvives) k2))).filter
            (fun e => (e.1 == k) && decide (0 < e.2))).map (·.2)).sum := by
    rw [outSum, cleanRecs, List.filter_map, List.map_map, groupedSums,
      List.filter_filter]
    rfl
  have hfib : fiberSum (rs.filter rowSurvives) k = rawKeySum rs k := by
    rw [fiberSum, rawKeySum, List.filter_filter]
    rfl
  rw [h1, sum_over_keyed k (fiberSum (rs.filter rowSurvives)) _ hnd, hfib]
  by_cases hk : k ∈ (rs.filter rowSurvives).map recKey
  · have hmem : k ∈ groupKeysSorted (rs.filter rowSurvives) :=
      (List.mem_insertionSort keyLE).mpr (List.mem_dedup.mpr hk)
    by_cases hpos : 0 < rawKeySum rs k
    · rw [if_pos ⟨hmem, hpos⟩, if_pos hpos]
    · rw [if_neg (fun hcon => hpos hcon.2), if_neg hpos]
  · have h0 : rawKeySum rs k = 0 := by
      rw [rawKeySum]
      have hnil : rs.filter (survCond k) = [] := by
        rw [List.filter_eq_nil_iff]
        intro r hr hc
        have h2 := (Bool.and_eq_true _ _).mp hc
        apply hk
        rw [List.mem_map]
        refine ⟨r, List.mem_filter.mpr ⟨hr, h2.2⟩, ?_⟩
        exact eq_of_beq h2.1
      rw [hnil]
      rfl
    have hmem : k ∉ groupKeysSorted (rs.filter rowSurvives) := fun hcon =>
      hk (List.mem_dedup.mp ((List.mem_insertionSort keyLE).mp hcon))
    rw [h0]
    rw [if_neg (fun hcon => hmem hcon.1), if_neg (by exact fun hcon => lt_irrefl 0 hcon)]

/-- Raw per-key sum of the empty row list. -/
theorem rawKeySum_nil (k : String × String) : rawKeySum [] k = 0 := rfl

/-- Raw per-key sum over a cons: the head contributes its count exactly
when it survives with key `k`. -/
theorem rawKeySum_cons (k : String × String) (r : RawRec) (rs : List RawRec) :
    rawKeySum (r :: rs) k = (if survCond k r = true then r.qty else 0) + rawKeySum rs k := by
  rw [rawKeySum, List.filter_cons]
  by_cases hb : survCond k r = true
  · rw [if_pos hb, if_pos hb, List.map_cons, List.sum_cons, rawKeySum]
  · rw [if_neg hb, if_neg hb, zero_add, rawKeySum]

/-- Raw per-key sums add over concatenation. -/
theorem rawKeySum_append (k : String × String) (a b : List RawRec) :
    rawKeySum (a ++ b) k = rawKeySum a k + rawKeySum b k := by
  rw [rawKeySum, rawKeySum, rawKeySum, List.filter_append, List.map_append,
    List.sum_append]

/-- Splitting one row into rows with the same model and method whose counts
sum to the original does not change any raw per-key sum (the row filters
never inspect the count). -/
theorem rawKeySum_splitRows (k : String × String) (m p : String) (qs : List Int) :
    rawKeySum (qs.map fun q => { model := m, method := p, qty := q }) k =
      rawKeySum [{ model := m, method := p, qty := qs.sum }] k := by
  induction qs with
  | nil =>
    rw [List.map_nil, rawKeySum_nil]
    rw [rawKeySum_cons, rawKeySum_nil]
    by_cases hb : survCond k { model := m, method := p, qty := List.sum ([] : List Int) } = true
    · rw [if_pos hb]
      simp
    · rw [if_neg hb]
      simp
  | cons q qs ih =>
    rw [List.map_cons, rawKeySum_cons, ih]
    rw [rawKeySum_cons, rawKeySum_nil, rawKeySum_cons, rawKeySum_nil, List.sum_cons]
    have hsame : ∀ q1 q2 : Int,
        survCond k { model := m, method := p, qty := q1 } =
          survCond k { model := m, method := p, qty := q2 } := fun q1 q2 => rfl
    by_cases hb : survCond k { model := m, method := p, qty := q } = true
    · rw [if_pos hb, if_pos ((hsame (q + qs.sum) q).trans hb),
        if_pos ((hsame qs.sum q).trans hb)]
      ring
    · rw [if_neg hb, if_neg (fun hc => hb ((hsame q (q + qs.sum)).trans hc)),
        if_neg (fun hc => hb ((hsame q qs.sum).trans hc))]
      ring

/-- C6: the aggregation of `clean_dataframe` is order- and split-invariant:
reordering the input rows, or splitting a row of a given (model, method)
into several rows whose counts sum to the original, leaves the summed count
of every (model, method) pair in the cleaned output unchanged. -/
theorem aggregation_invariant (rs rs2 : List RawRec) (h : rs.Perm rs2)
    (pre post : List RawRec) (m p : String) (qs : List Int) (k : String × String) :
    outSum rs k = outSum rs2 k ∧
      outSum (pre ++ { model := m, method := p, qty := qs.sum } :: post) k =
        outSum (pre ++ qs.map (fun q => { model := m, method := p, qty := q }) ++ post) k := by
  constructor
  · rw [outSum_eq, outSum_eq]
    have heq : rawKeySum rs k = rawKeySum rs2 k :=
      List.Perm.sum_eq (List.Perm.map _ (List.Perm.filter _ h))
    rw [heq]
  · rw [outSum_eq, outSum_eq]
    have heq : rawKeySum (pre ++ { model := m, method := p, qty := qs.sum } :: post) k =
        rawKeySum (pre ++ qs.map (fun q => { model := m, method := p, qty := q }) ++ post) k := by
      rw [show pre ++ { model := m, method := p, qty := qs.sum } :: post =
          pre ++ [{ model := m, method := p, qty := qs.sum }] ++ post by simp]
      rw [rawKeySum_append, rawKeySum_append, rawKeySum_append, rawKeySum_append,
        rawKeySum_splitRows]
    rw [heq]

/-- Witness for C6: swapping two concrete rows and splitting a concrete
count-5 row into counts 2 and 3 leave the summed count of the pair
(M1, 단순변심) unchanged. -/
theorem aggregation_invariant_w :
    ([{ model := "M1", method := "단순변심", qty := 2 },
      { model := "M2", method := "물량교환", qty := 3 }] : List RawRec).Perm
        [{ model := "M2", method := "물량교환", qty := 3 },
         { model := "M1", method := "단순변심", qty := 2 }] ∧
      outSum [{ model := "M1", method := "단순변심", qty := 2 },
              { model := "M2", method := "물량교환", qty := 3 }] ("M1", "단순변심") =
        outSum [{ model := "M2", method := "물량교환", qty := 3 },
                { model := "M1", method := "단순변심", qty := 2 }] ("M1", "단순변심") ∧
      outSum [{ model := "M1", method := "단순변심", qty := (5 : Int) }] ("M1", "단순변심") =
        outSum [{ model := "M1", method := "단순변심", qty := 2 },
                { model := "M1", method := "단순변심", qty := 3 }] ("M1", "단순변심") :=
  have happ := aggregation_invariant
    [{ model := "M1", method := "단순변심", qty := 2 },
     { model := "M2", method := "물량교환", qty := 3 }]
    [{ model := "M2", method := "물량교환", qty := 3 },
     { model := "M1", method := "단순변심", qty := 2 }]
    (by decide) [] [] "M1" "단순변심" [2, 3] ("M1", "단순변심")
  ⟨by decide, happ.1, happ.2⟩

/-- The half-even rounding is within one half of its argument. -/
theorem roundHalfEven_close (x : ℚ) : |(roundHalfEven x : ℚ) - x| ≤ 1 / 2 := by
  have hf : (⌊x⌋ : ℚ) ≤ x := Int.floor_le x
  have hc : x < ⌊x⌋ + 1 := Int.lt_floor_add_one x
  rw [roundHalfEven]
  split_ifs with h1 h2 h3 <;> rw [abs_le] <;> push_cast <;> constructor <;> linarith

/-- Rounding to one decimal moves a value by at most 1/20. -/
theorem round1_close (x : ℚ) : |round1 x - x| ≤ 1 / 20 := by
  have h := roundHalfEven_close (10 * x)
  rw [round1]
  have heq : (roundHalfEven (10 * x) : ℚ) / 10 - x =
      ((roundHalfEven (10 * x) : ℚ) - 10 * x) / 10 := by ring
  rw [heq, abs_div]
  rw [show |(10 : ℚ)| = 10 by norm_num]
  linarith

/-- Rounding every summand to one decimal moves the sum by at most 1/20 per
summand. -/
theorem sum_round1_close (l : List ℚ) :
    |(l.map round1).sum - l.sum| ≤ (l.length : ℚ) / 20 := by
  induction l with
  | nil => simp
  | cons x xs ih =>
    rw [List.map_cons, List.sum_cons, List.sum_cons, List.length_cons]
    have h1 := round1_close x
    have habs : |round1 x + (xs.map round1).sum - (x + xs.sum)| ≤
        |round1 x - x| + |(xs.map round1).sum - xs.sum| := by
      have := abs_add (round1 x - x) ((xs.map round1).sum - xs.sum)
      calc |round1 x + (xs.map round1).sum - (x + xs.sum)|
          = |(round1 x - x) + ((xs.map round1).sum - xs.sum)| := by ring_nf
        _ ≤ |round1 x - x| + |(xs.map round1).sum - xs.sum| := this
    push_cast
    linarith

/-- On a table of positive counts every grouped per-method sum is positive. -/
theorem process_summary_pos (data : List RawRec) (hpos : ∀ r ∈ data, 0 < r.qty) :
    ∀ e ∈ process_summary data, 0 < e.2 := by
  intro e he
  obtain ⟨p, hp, rfl⟩ := List.mem_map.mp he
  have hp2 : p ∈ data.map (·.method) :=
    List.mem_dedup.mp ((List.mem_insertionSort (· ≤ ·)).mp hp)
  obtain ⟨r, hr, rfl⟩ := List.mem_map.mp hp2
  apply List.sum_pos
  · intro x hx
    obtain ⟨r2, hr2, rfl⟩ := List.mem_map.mp hx
    exact hpos r2 (List.mem_filter.mp hr2).1
  · have hrf : r ∈ data.filter (fun r2 => r2.method == r.method) :=
      List.mem_filter.mpr ⟨hr, by simp⟩
    intro hnil
    rw [List.map_eq_nil_iff] at hnil
    rw [hnil] at hrf
    exact absurd hrf (List.not_mem_nil r)

/-- A non-empty table yields a non-empty per-method summary. -/
theorem process_summary_ne_nil (data : List RawRec) (hne : data ≠ []) :
    process_summary data ≠ [] := by
  match data, hne with
  | r :: rest, _ =>
    have hm : r.method ∈ (r :: rest).map (·.method) := List.mem_map_of_mem _ (by simp)
    have hm2 : r.method ∈ (((r :: rest).map (·.method)).dedup).insertionSort (· ≤ ·) :=
      (List.mem_insertionSort (· ≤ ·)).mpr (List.mem_dedup.mpr hm)
    have : (r.method, methodFiberSum (r :: rest) r.method) ∈ process_summary (r :: rest) :=
      List.mem_map_of_mem _ hm2
    exact List.ne_nil_of_mem this

/-- The grand total of a non-empty table of positive counts is positive. -/
theorem grandTotal_pos (data : List RawRec) (hne : data ≠ [])
    (hpos : ∀ r ∈ data, 0 < r.qty) : 0 < grandTotal data := by
  apply List.sum_pos
  · intro x hx
    obtain ⟨e, he, rfl⟩ := List.mem_map.mp hx
    exact process_summary_pos data hpos e he
  · intro hnil
    rw [List.map_eq_nil_iff] at hnil
    exact process_summary_ne_nil data hne hnil

/-- The unrounded per-category percentages sum to exactly 100 (the grand
total of line 113 is the sum of the very same grouped counts). -/
theorem pct_sum_exact (data : List RawRec) (hne : data ≠ [])
    (hpos : ∀ r ∈ data, 0 < r.qty) :
    ((process_summary data).map fun e =>
      (e.2 : ℚ) / (grandTotal data : ℚ) * 100).sum = 100 := by
  have hT : ((grandTotal data : Int) : ℚ) ≠ 0 := by
    have := grandTotal_pos data hne hpos
    exact_mod_cast ne_of_gt (by exact_mod_cast this)
  have hfun : (fun e : String × Int => (e.2 : ℚ) / (grandTotal data : ℚ) * 100) =
      fun e : String × Int => ((e.2 : ℚ)) * (100 / (grandTotal data : ℚ)) := by
    funext e
    ring
  rw [hfun, List.sum_map_mul_right]
  have hTsum : ((process_summary data).map fun e : String × Int => ((e.2 : ℚ))).sum =
      ((grandTotal data : Int) : ℚ) := by
    rw [grandTotal, Int.cast_list_sum, List.map_map]
    rfl
  rw [hTsum]
  field_simp

/-- C9: for a non-empty cleaned table the rounded per-category percentages
of line 114 sum to 100 within one rounding tolerance of ±0.1 per
category. -/
theorem ratios_sum_within_tolerance (data : List RawRec) (hne : data ≠ [])
    (hpos : ∀ r ∈ data, 0 < r.qty) :
    |(ratios data).sum - 100| ≤ ((process_summary data).length : ℚ) / 10 := by
  have hmm : ratios data = ((process_summary data).map fun e =>
      (e.2 : ℚ) / (grandTotal data : ℚ) * 100).map round1 := by
    rw [ratios, List.map_map]
    rfl
  have hlen : (((process_summary data).map fun e =>
      (e.2 : ℚ) / (grandTotal data : ℚ) * 100)).length = (process_summary data).length :=
    List.length_map _ _
  have hclose := sum_round1_close ((process_summary data).map fun e =>
      (e.2 : ℚ) / (grandTotal data : ℚ) * 100)
  rw [pct_sum_exact data hne hpos, hlen] at hclose
  rw [hmm]
  have hnn : (0 : ℚ) ≤ ((process_summary data).length : ℚ) := by positivity
  calc |(((process_summary data).map fun e =>
        (e.2 : ℚ) / (grandTotal data : ℚ) * 100).map round1).sum - 100|
      ≤ ((process_summary data).length : ℚ) / 20 := hclose
    _ ≤ ((process_summary data).length : ℚ) / 10 := by linarith

/-- Witness for C9: a concrete two-row cleaned table (counts 3 and 1) has
rounded percentages summing to 100 within the tolerance. -/
theorem ratios_sum_within_tolerance_w :
    (([{ model := "M1", method := "단순변심", qty := 3 },
       { model := "M2", method := "물량교환", qty := 1 }] : List RawRec) ≠ []) ∧
      (∀ r ∈ ([{ model := "M1", method := "단순변심", qty := 3 },
               { model := "M2", method := "물량교환", qty := 1 }] : List RawRec), 0 < r.qty) ∧
      |(ratios [{ model := "M1", method := "단순변심", qty := 3 },
                { model := "M2", method := "물량교환", qty := 1 }]).sum - 100| ≤
        ((process_summary [{ model := "M1", method := "단순변심", qty := 3 },
                           { model := "M2", method := "물량교환", qty := 1 }]).length : ℚ) / 10 :=
  ⟨by decide, by decide,
    ratios_sum_within_tolerance
      [{ model := "M1", method := "단순변심", qty := 3 },
       { model := "M2", method := "물량교환", qty := 1 }] (by decide) (by decide)⟩

end MurrayApp
